import Mathlib

/-!
Verification of the `use-api-client` request lifecycle controller
(`src/hook.tsx`).

The controller is a React hook; per the design abstraction, its
`useState` cells become an explicit state record (`CallState`) threaded
through the operations, timers become explicit handles, and the HTTP
transport becomes an oracle (`TransportResult`) supplied to each
invocation of `request`.  JavaScript numeric truthiness (`0` is falsy)
is modelled explicitly where the source relies on it (`config.ttl`,
`config.refresh`, `progressInterval`, `maxRetryCount || 3`).  Response
payloads and error objects are modelled as opaque numerals.
-/

namespace UseApiClient

/-- `logging` block of `IClientConfig` (hook.tsx lines 11-16).
`logFunction` only chooses the sink; emission is modelled by the
`Option` result of `logger`, so the function itself is not stored. -/
structure LoggingConfig where
  enableLogging : Bool
  logLevel : Option String

/-- `retry` block of `IClientConfig` (hook.tsx lines 17-23). -/
structure RetryConfig where
  enableRetry : Bool
  maxRetryCount : Option Nat
  retryInterval : Option Nat
  retryCondition : Option (Nat → Bool)

/-- `progress` block of `IClientConfig` (hook.tsx lines 24-30).
`progressMode` is a string at runtime (the switch has a default arm),
so it is modelled as `Option String`. -/
structure ProgressConfig where
  progressMode : Option String
  progressInterval : Option Nat

/-- `IClientConfig` (hook.tsx lines 6-36).  `hasOnException` records
whether the `onException` callback is configured; the callback's own
behaviour is external. -/
structure ClientConfig where
  hasOnException : Bool
  logging : Option LoggingConfig
  retry : Option RetryConfig
  progress : Option ProgressConfig

/-- `IApiCall` (hook.tsx lines 39-48), restricted to the fields the
controller's state machine reads. -/
structure ApiCall where
  refresh : Option Nat
  ttl : Option Nat

/-- JavaScript truthiness of an optional number: `undefined` and `0`
are falsy. -/
def numTruthy : Option Nat → Bool
  | some n => n != 0
  | none => false

/-- The `useState` cells of the hook (hook.tsx lines 55-67), except
`intervalId`, which only `startPolling`/`stopPolling` touch and which
is modelled in `PollWorld` below.  `progress` is rational because the
`both` mode averages two percentages with JavaScript `/`. -/
structure CallState where
  response : Option Nat
  loading : Bool
  error : Option Nat
  source : Option Nat
  cache : Option Nat
  cacheTime : Nat
  uploadProgress : Nat
  downloadProgress : Nat
  progress : ℚ
  progressUpdateInterval : Option Nat
  retryCount : Nat
deriving DecidableEq, Repr

/-- Initial values of the state cells (hook.tsx lines 55-67). -/
def initState : CallState where
  response := none
  loading := false
  error := none
  source := none
  cache := none
  cacheTime := 0
  uploadProgress := 0
  downloadProgress := 0
  progress := 0
  progressUpdateInterval := none
  retryCount := 0

/-- The `shouldLog` computation of `logger` (hook.tsx lines 74-92):
the switch on the configured `logLevel`, whose default arm admits
nothing.  The switch compares strings, so the configured level is an
arbitrary optional string here. -/
def shouldLog (logLevel : Option String) (level : String) : Bool :=
  if logLevel = some "debug" then true
  else if logLevel = some "info" then
    level == "info" || level == "warn" || level == "error"
  else if logLevel = some "warn" then
    level == "warn" || level == "error"
  else if logLevel = some "error" then
    level == "error"
  else false

/-- `logger` (hook.tsx lines 69-102).  Returns the `(level, message)`
pair that reaches the sink (custom `logFunction` or the default
console sink), or `none` when the message is filtered out. -/
def logger (preferences : ClientConfig) (level message : String) :
    Option (String × String) :=
  match preferences.logging with
  | none => none
  | some logging =>
    if !logging.enableLogging then none
    else if !shouldLog logging.logLevel level then none
    else some (level, message)

/-- The `percentCompleted` computation of `updateProgress`
(hook.tsx lines 112-114): `Math.round((loaded * 100) / total)`,
i.e. round-half-up of the exact ratio, as natural-number arithmetic:
`⌊(100*loaded)/total + 1/2⌋ = (200*loaded + total) / (2*total)`. -/
def percentCompleted (loaded total : Nat) : Nat :=
  (200 * loaded + total) / (2 * total)

/-- `triggerProgressChange` (hook.tsx lines 125-144).  The switch on
`progressMode` compares strings; the default arm covers `"both"` and
any other value and averages with JavaScript `/` (exact division). -/
def triggerProgressChange (preferences : ClientConfig) (s : CallState) :
    CallState :=
  match preferences.progress with
  | none => s
  | some p =>
    if p.progressMode = some "upload" then
      { s with progress := (s.uploadProgress : ℚ) }
    else if p.progressMode = some "download" then
      { s with progress := (s.downloadProgress : ℚ) }
    else
      { s with progress := ((s.uploadProgress : ℚ) + (s.downloadProgress : ℚ)) / 2 }

/-- One event observed while the transport call is in flight: an
`onUploadProgress`/`onDownloadProgress` callback (hook.tsx lines
218-232) or one firing of the progress-sampling interval armed at
lines 183-188. -/
inductive MidEvent where
  | upload (loaded total : Nat)
  | download (loaded total : Nat)
  | tick
deriving DecidableEq, Repr

/-- Effect of one mid-flight event on the state.  The progress
callbacks go through `updateProgress` (hook.tsx lines 105-122), which
only updates when `progressEvent.total` is truthy; a `tick` runs
`triggerProgressChange` (line 185). -/
def applyMid (preferences : ClientConfig) (s : CallState) :
    MidEvent → CallState
  | .upload loaded total =>
    if total ≠ 0 then { s with uploadProgress := percentCompleted loaded total }
    else s
  | .download loaded total =>
    if total ≠ 0 then { s with downloadProgress := percentCompleted loaded total }
    else s
  | .tick => triggerProgressChange preferences s

/-- Outcome of one transport attempt, as seen by `request`'s inner
`try`/`catch` (hook.tsx lines 203-276): success with a payload,
failure with an error object, or completion as a cancellation
(`axios.isCancel`). -/
inductive TransportResult where
  | success (data : Nat)
  | failure (err : Nat)
  | cancelled
deriving DecidableEq, Repr

/-- `preferences.retry?.maxRetryCount || 3` (hook.tsx line 256):
`undefined` and `0` both fall back to the default 3. -/
def effMaxRetryCount (r : RetryConfig) : Nat :=
  match r.maxRetryCount with
  | some m => if m = 0 then 3 else m
  | none => 3

/-- The straight-line prefix of `request` (hook.tsx lines 162-194):
set `loading`, clear `error`, zero the progress cells, arm the
progress-sampling interval when configured, and store a fresh cancel
source. -/
def requestBegin (preferences : ClientConfig) (s : CallState) : CallState :=
  let s1 : CallState :=
    { s with loading := true, error := none,
             progress := 0, uploadProgress := 0, downloadProgress := 0 }
  let s2 : CallState :=
    match preferences.progress with
    | some p =>
      if numTruthy p.progressInterval then
        { s1 with progressUpdateInterval := some 1 }
      else s1
    | none => s1
  { s2 with source := some 1 }

/-- The cache guard `config.ttl && cache && cacheTime + config.ttl >
Date.now()` (hook.tsx line 199).  Payloads are modelled as opaque
(truthy) values, so `cache &&` is presence of a cached entry. -/
def cacheHit (config : ApiCall) (now : Nat) (s : CallState) : Bool :=
  numTruthy config.ttl && s.cache.isSome &&
    decide (s.cacheTime + config.ttl.getD 0 > now)

/-- Outer `finally` of `request` (hook.tsx lines 285-292): clear
`loading` and stop the progress-sampling timer.  (The source clears
the timer but does not null the state cell holding its id; no state
cell changes besides `loading`.) -/
def requestFinally (s : CallState) : CallState :=
  { s with loading := false }

/-- Result of one `request` invocation: the final state plus the
externally visible effects (whether the transport was invoked, whether
a retry was scheduled via `setTimeout`, and the argument passed to
`preferences.onException` if it was called). -/
structure RequestOutcome where
  state : CallState
  transportInvoked : Bool
  retryScheduled : Bool
  onExceptionArg : Option Nat
deriving DecidableEq, Repr

/-- Handling of the transport completion (hook.tsx lines 234-292):
the success path (lines 234-245), the inner `catch` (lines 246-272)
with the retry policy, cancellation filtering, the inner `finally`
(line 275) and the outer `catch` (lines 278-284) that stores the error
and calls `onException`. -/
def applyResult (preferences : ClientConfig) (config : ApiCall) (now : Nat)
    (result : TransportResult) (s : CallState) : RequestOutcome :=
  match result with
  | .success data =>
    let s1 : CallState :=
      if numTruthy config.ttl then { s with cache := some data, cacheTime := now }
      else s
    { state := { s1 with response := some data, source := none },
      transportInvoked := true, retryScheduled := false, onExceptionArg := none }
  | .cancelled =>
    { state := { s with source := none },
      transportInvoked := true, retryScheduled := false, onExceptionArg := none }
  | .failure err =>
    match preferences.retry with
    | some r =>
      if r.enableRetry && decide (s.retryCount < effMaxRetryCount r) then
        match r.retryCondition with
        | some cond =>
          if cond err then
            { state := { s with retryCount := s.retryCount + 1, source := none },
              transportInvoked := true, retryScheduled := true,
              onExceptionArg := none }
          else
            { state := { s with source := none, error := some err },
              transportInvoked := true, retryScheduled := false,
              onExceptionArg :=
                if preferences.hasOnException then some err else none }
        | none =>
          { state := { s with source := none },
            transportInvoked := true, retryScheduled := false,
            onExceptionArg := none }
      else
        { state := { s with retryCount := 0, source := none, error := some err },
          transportInvoked := true, retryScheduled := false,
          onExceptionArg := if preferences.hasOnException then some err else none }
    | none =>
      { state := { s with retryCount := 0, source := none, error := some err },
        transportInvoked := true, retryScheduled := false,
        onExceptionArg := if preferences.hasOnException then some err else none }

/-- One invocation of `request` (hook.tsx lines 161-293), given the
events observed while the transport call was in flight and its
completion.  On a valid cache hit (line 199) the transport is skipped
and only the local variable receives the cached value. -/
def request (preferences : ClientConfig) (config : ApiCall) (now : Nat)
    (script : List MidEvent) (result : TransportResult) (s : CallState) :
    RequestOutcome :=
  let sb := requestBegin preferences s
  if cacheHit config now sb then
    { state := requestFinally sb, transportInvoked := false,
      retryScheduled := false, onExceptionArg := none }
  else
    let sm := script.foldl (applyMid preferences) sb
    let o := applyResult preferences config now result sm
    { o with state := requestFinally o.state }

/-- Summary of a run of attempts driven by the retry `setTimeout`
(hook.tsx lines 263-265): final state, number of transport
invocations, and the `onException` calls in order. -/
structure RunSummary where
  finalState : CallState
  invocations : Nat
  exceptions : List Nat
deriving DecidableEq, Repr

/-- Runs `request` once per pending attempt: the head transport result
feeds the first invocation; while a retry is scheduled the next result
feeds the re-invocation of `request` (hook.tsx line 264). -/
def runRetries (preferences : ClientConfig) (config : ApiCall) (now : Nat)
    (s : CallState) : List TransportResult → RunSummary
  | [] => { finalState := s, invocations := 0, exceptions := [] }
  | r :: rs =>
    let o := request preferences config now [] r s
    if o.retryScheduled then
      let rest := runRetries preferences config now o.state rs
      { finalState := rest.finalState,
        invocations := (if o.transportInvoked then 1 else 0) + rest.invocations,
        exceptions := o.onExceptionArg.toList ++ rest.exceptions }
    else
      { finalState := o.state,
        invocations := if o.transportInvoked then 1 else 0,
        exceptions := o.onExceptionArg.toList }

/-- `cancel` (hook.tsx lines 301-305): triggers `source.cancel()` only
when a source is stored.  It mutates no state cell; the Boolean
records whether the in-flight transport was asked to cancel. -/
def cancel (s : CallState) : CallState × Bool :=
  match s.source with
  | some _ => (s, true)
  | none => (s, false)

/-- State of the polling machinery: the `intervalId` cell (hook.tsx
line 61) plus the environment's set of live recurring timers and a
fresh-id supply. -/
structure PollWorld where
  intervalId : Option Nat
  active : List Nat
  fresh : Nat
deriving DecidableEq, Repr

/-- Polling state before any `startPolling`/`stopPolling` call. -/
def initPoll : PollWorld where
  intervalId := none
  active := []
  fresh := 0

/-- `stopPolling` (hook.tsx lines 320-327): clears the timer when one
is recorded, otherwise does nothing; the body is wrapped in
`try`/`catch`, so it never raises. -/
def stopPolling (w : PollWorld) : PollWorld :=
  match w.intervalId with
  | some id =>
    { w with active := w.active.filter (fun t => t ≠ id), intervalId := none }
  | none => w

/-- `startPolling` (hook.tsx lines 308-317): only acts when
`config.refresh` is truthy; first runs `stopPolling`, then arms a
fresh recurring timer. -/
def startPolling (config : ApiCall) (w : PollWorld) : PollWorld :=
  if numTruthy config.refresh then
    let w1 := stopPolling w
    { w1 with intervalId := some w1.fresh, active := w1.fresh :: w1.active,
              fresh := w1.fresh + 1 }
  else w

/-- `polling.resume` / `polling.pause` (hook.tsx lines 346-349). -/
inductive PollOp where
  | resume
  | pause
deriving DecidableEq, Repr

/-- Applies a sequence of `polling.resume`/`polling.pause` calls. -/
def applyPollOps (config : ApiCall) (w : PollWorld) (ops : List PollOp) :
    PollWorld :=
  ops.foldl
    (fun w op => match op with
      | .resume => startPolling config w
      | .pause => stopPolling w) w


/-- Fields of the state that mid-flight events never touch: the
progress callbacks and the sampling tick only write the three
progress cells. -/
def SameCore (s t : CallState) : Prop :=
  t.response = s.response ∧ t.cache = s.cache ∧ t.cacheTime = s.cacheTime ∧
  t.retryCount = s.retryCount ∧ t.error = s.error ∧ t.loading = s.loading ∧
  t.source = s.source ∧ t.progressUpdateInterval = s.progressUpdateInterval

theorem sameCore_refl (s : CallState) : SameCore s s :=
  ⟨rfl, rfl, rfl, rfl, rfl, rfl, rfl, rfl⟩

theorem sameCore_trans {s t u : CallState} (h1 : SameCore s t)
    (h2 : SameCore t u) : SameCore s u := by
  obtain ⟨a1, a2, a3, a4, a5, a6, a7, a8⟩ := h1
  obtain ⟨b1, b2, b3, b4, b5, b6, b7, b8⟩ := h2
  exact ⟨b1.trans a1, b2.trans a2, b3.trans a3, b4.trans a4,
         b5.trans a5, b6.trans a6, b7.trans a7, b8.trans a8⟩

theorem triggerProgressChange_sameCore (preferences : ClientConfig)
    (s : CallState) : SameCore s (triggerProgressChange preferences s) := by
  unfold triggerProgressChange
  split
  · exact sameCore_refl s
  · split_ifs <;> exact ⟨rfl, rfl, rfl, rfl, rfl, rfl, rfl, rfl⟩

theorem applyMid_sameCore (preferences : ClientConfig) (s : CallState)
    (e : MidEvent) : SameCore s (applyMid preferences s e) := by
  cases e with
  | upload loaded total =>
    simp only [applyMid]
    split_ifs
    · exact ⟨rfl, rfl, rfl, rfl, rfl, rfl, rfl, rfl⟩
    · exact sameCore_refl s
  | download loaded total =>
    simp only [applyMid]
    split_ifs
    · exact ⟨rfl, rfl, rfl, rfl, rfl, rfl, rfl, rfl⟩
    · exact sameCore_refl s
  | tick => exact triggerProgressChange_sameCore preferences s

theorem foldlMid_sameCore (preferences : ClientConfig) :
    ∀ (script : List MidEvent) (s : CallState),
    SameCore s (script.foldl (applyMid preferences) s)
  | [], s => sameCore_refl s
  | e :: es, s => by
    simp only [List.foldl_cons]
    exact sameCore_trans (applyMid_sameCore preferences s e)
      (foldlMid_sameCore preferences es (applyMid preferences s e))

theorem requestBegin_fields (preferences : ClientConfig) (s : CallState) :
    (requestBegin preferences s).response = s.response ∧
    (requestBegin preferences s).cache = s.cache ∧
    (requestBegin preferences s).cacheTime = s.cacheTime ∧
    (requestBegin preferences s).retryCount = s.retryCount ∧
    (requestBegin preferences s).error = none ∧
    (requestBegin preferences s).loading = true ∧
    (requestBegin preferences s).source = some 1 := by
  unfold requestBegin
  split
  · split_ifs <;> exact ⟨rfl, rfl, rfl, rfl, rfl, rfl, rfl⟩
  · exact ⟨rfl, rfl, rfl, rfl, rfl, rfl, rfl⟩

theorem cacheHit_requestBegin (preferences : ClientConfig) (config : ApiCall)
    (now : Nat) (s : CallState) :
    cacheHit config now (requestBegin preferences s) = cacheHit config now s := by
  obtain ⟨-, h2, h3, -⟩ := requestBegin_fields preferences s
  unfold cacheHit
  rw [h2, h3]



/-- A call binding with neither polling nor caching configured. -/
def cfgEmpty : ApiCall where
  refresh := none
  ttl := none

/-- Retry enabled with the default-equal maximum of 3 and no
`retryCondition` — the configuration of the C1 scenario. -/
def prefsNoCond : ClientConfig where
  hasOnException := true
  logging := none
  progress := none
  retry := some { enableRetry := true, maxRetryCount := some 3,
                  retryInterval := some 1000, retryCondition := none }

/-- With retry enabled, no `retryCondition` configured and a transport
that fails on every attempt, the controller performs exactly one
transport invocation and then silently drops the error: no retry is
scheduled, `error` stays null, `retryCount` stays 0 and `onException`
is never called.  The inner conditional at hook.tsx line 258 has no
else branch, so the failure is swallowed, contradicting the retry
described by the comment at line 253. -/
theorem C1_no_retry_without_condition :
    (runRetries prefsNoCond cfgEmpty 0 initState
      [.failure 7, .failure 7, .failure 7, .failure 7]).invocations = 1 ∧
    (runRetries prefsNoCond cfgEmpty 0 initState
      [.failure 7, .failure 7, .failure 7, .failure 7]).finalState.error = none ∧
    (runRetries prefsNoCond cfgEmpty 0 initState
      [.failure 7, .failure 7, .failure 7, .failure 7]).finalState.retryCount = 0 ∧
    (runRetries prefsNoCond cfgEmpty 0 initState
      [.failure 7, .failure 7, .failure 7, .failure 7]).exceptions = [] := by
  refine ⟨?_, ?_, ?_, ?_⟩ <;> decide

/-- Retry enabled with a configured maximum of 0 (which the fallback
`|| 3` turns into 3) and a retry condition that always accepts. -/
def prefsMaxZero : ClientConfig where
  hasOnException := false
  logging := none
  progress := none
  retry := some { enableRetry := true, maxRetryCount := some 0,
                  retryInterval := none, retryCondition := some (fun _ => true) }

/-- Counterexample to C3 as stated: with configured
`maxRetryCount = 0` and a transport failing once and then succeeding,
the run ends in a successful completion (`response = 9`) with
`retryCount = 1`, which both exceeds the configured maximum 0 (the
source uses `maxRetryCount || 3`, hook.tsx line 256) and shows that a
successful transport completion does not reset `retryCount` to 0 (no
reset occurs on the success path, hook.tsx lines 234-245). -/
theorem C3_counterexample :
    (runRetries prefsMaxZero cfgEmpty 0 initState
      [.failure 5, .success 9]).finalState.response = some 9 ∧
    (runRetries prefsMaxZero cfgEmpty 0 initState
      [.failure 5, .success 9]).finalState.retryCount = 1 ∧
    (prefsMaxZero.retry.map RetryConfig.maxRetryCount) = some (some 0) := by
  refine ⟨?_, ?_, ?_⟩ <;> decide

/-- C10: with no in-flight request (no cancel source stored), calling
`cancel()` changes no state cell, cancels nothing, and never raises
(hook.tsx lines 301-305: the body is guarded by `if (source)`). -/
theorem C10_cancel_noop (s : CallState) (h : s.source = none) :
    cancel s = (s, false) := by
  unfold cancel
  rw [h]

/-- Witness for C10 at the freshly created state. -/
theorem C10_cancel_noop_witness : cancel initState = (initState, false) :=
  C10_cancel_noop initState rfl

/-- C4: when the in-flight transport call completes as a cancellation
(`axios.isCancel`, hook.tsx line 248), the invocation ends with
`loading = false`, `error` still null, no retry scheduled, and
`onException` not invoked. -/
theorem C4_cancellation (preferences : ClientConfig) (config : ApiCall)
    (now : Nat) (script : List MidEvent) (s : CallState) :
    (request preferences config now script .cancelled s).state.loading = false ∧
    (request preferences config now script .cancelled s).state.error = none ∧
    (request preferences config now script .cancelled s).retryScheduled = false ∧
    (request preferences config now script .cancelled s).onExceptionArg = none := by
  refine ⟨?_, ?_, ?_, ?_⟩ <;>
    unfold request <;>
    by_cases h : cacheHit config now (requestBegin preferences s) <;>
    simp only [h, if_true, if_false, Bool.false_eq_true, requestFinally,
      applyResult]
  · exact (requestBegin_fields preferences s).2.2.2.2.1
  · exact ((foldlMid_sameCore preferences script
        (requestBegin preferences s)).2.2.2.2.1).trans
      (requestBegin_fields preferences s).2.2.2.2.1



theorem applyResult_prog (preferences : ClientConfig) (config : ApiCall)
    (now : Nat) (result : TransportResult) (s : CallState) :
    (applyResult preferences config now result s).state.uploadProgress = s.uploadProgress ∧
    (applyResult preferences config now result s).state.downloadProgress = s.downloadProgress ∧
    (applyResult preferences config now result s).state.progress = s.progress := by
  cases result with
  | success data =>
    simp only [applyResult]
    try split_ifs
    all_goals refine ⟨?_, ?_, ?_⟩ <;> trivial
  | cancelled => exact ⟨rfl, rfl, rfl⟩
  | failure err =>
    rcases hr : preferences.retry with _ | r
    · simp only [applyResult, hr]
      try split_ifs
      all_goals refine ⟨?_, ?_, ?_⟩ <;> trivial
    · rcases hc : r.retryCondition with _ | cond <;>
        simp only [applyResult, hr, hc] <;>
        try split_ifs <;>
        all_goals refine ⟨?_, ?_, ?_⟩ <;> trivial

theorem applyResult_failure_keeps (preferences : ClientConfig) (config : ApiCall)
    (now : Nat) (err : Nat) (s : CallState) :
    (applyResult preferences config now (.failure err) s).state.cache = s.cache ∧
    (applyResult preferences config now (.failure err) s).state.response = s.response := by
  rcases hr : preferences.retry with _ | r
  · simp only [applyResult, hr]
    try split_ifs
    all_goals refine ⟨?_, ?_⟩ <;> trivial
  · rcases hc : r.retryCondition with _ | cond <;>
      simp only [applyResult, hr, hc] <;>
      try split_ifs <;>
      all_goals refine ⟨?_, ?_⟩ <;> trivial



/-- C5: with retry enabled and a `retryCondition` that rejects the
occurring error, a failing transport call surfaces the error after
exactly one transport invocation: the error is thrown at hook.tsx
line 260, caught by the outer handler (lines 278-284), stored in
`error`, passed to `onException` when configured, and no retry is
scheduled. -/
theorem C5_condition_false_fails_fast (preferences : ClientConfig)
    (config : ApiCall) (now : Nat) (script : List MidEvent) (s : CallState)
    (r : RetryConfig) (cond : Nat → Bool) (err : Nat)
    (hr : preferences.retry = some r) (hc : r.retryCondition = some cond)
    (hcf : cond err = false) (hmiss : cacheHit config now s = false) :
    (request preferences config now script (.failure err) s).transportInvoked = true ∧
    (request preferences config now script (.failure err) s).retryScheduled = false ∧
    (request preferences config now script (.failure err) s).state.error = some err ∧
    (preferences.hasOnException = true →
      (request preferences config now script (.failure err) s).onExceptionArg = some err) ∧
    (∀ rest, (runRetries preferences config now s (.failure err :: rest)).invocations = 1) := by
  have key : ∀ sc : List MidEvent,
      (request preferences config now sc (.failure err) s).transportInvoked = true ∧
      (request preferences config now sc (.failure err) s).retryScheduled = false ∧
      (request preferences config now sc (.failure err) s).state.error = some err ∧
      (preferences.hasOnException = true →
        (request preferences config now sc (.failure err) s).onExceptionArg = some err) := by
    intro sc
    have hmiss' : cacheHit config now (requestBegin preferences s) = false :=
      (cacheHit_requestBegin preferences config now s).trans hmiss
    have hrc : (sc.foldl (applyMid preferences)
        (requestBegin preferences s)).retryCount = s.retryCount :=
      ((foldlMid_sameCore preferences sc (requestBegin preferences s)).2.2.2.1).trans
        (requestBegin_fields preferences s).2.2.2.1
    simp only [request, hmiss', Bool.false_eq_true, if_false,
      applyResult, hr, hc, hrc, hcf]
    split_ifs with hg hx hx
    · exact ⟨rfl, rfl, rfl, fun _ => rfl⟩
    · exact ⟨rfl, rfl, rfl, fun h => absurd h hx⟩
    · exact ⟨rfl, rfl, rfl, fun _ => rfl⟩
    · exact ⟨rfl, rfl, rfl, fun h => absurd h hx⟩
  refine ⟨(key script).1, (key script).2.1, (key script).2.2.1, (key script).2.2.2, ?_⟩
  intro rest
  simp only [runRetries, (key []).2.1, Bool.false_eq_true, if_false, (key []).1]
  simp

/-- Witness for C5: a concrete configuration with an
always-rejecting retry condition and a failing transport. -/
theorem C5_condition_false_fails_fast_witness :
    (request
      { hasOnException := true, logging := none, progress := none,
        retry := some { enableRetry := true, maxRetryCount := some 3,
                        retryInterval := some 1000,
                        retryCondition := some (fun _ => false) } }
      cfgEmpty 0 [] (.failure 4) initState).state.error = some 4 :=
  (C5_condition_false_fails_fast
    { hasOnException := true, logging := none, progress := none,
      retry := some { enableRetry := true, maxRetryCount := some 3,
                      retryInterval := some 1000,
                      retryCondition := some (fun _ => false) } }
    cfgEmpty 0 [] initState
    { enableRetry := true, maxRetryCount := some 3, retryInterval := some 1000,
      retryCondition := some (fun _ => false) }
    (fun _ => false) 4 rfl rfl rfl (by decide)).2.2.1



theorem request_eq_hit (preferences : ClientConfig) (config : ApiCall)
    (now : Nat) (script : List MidEvent) (result : TransportResult)
    (s : CallState)
    (h : cacheHit config now (requestBegin preferences s) = true) :
    request preferences config now script result s =
      { state := requestFinally (requestBegin preferences s),
        transportInvoked := false, retryScheduled := false,
        onExceptionArg := none } := by
  simp only [request, h, if_true]

theorem request_eq_miss (preferences : ClientConfig) (config : ApiCall)
    (now : Nat) (script : List MidEvent) (result : TransportResult)
    (s : CallState)
    (h : cacheHit config now (requestBegin preferences s) = false) :
    request preferences config now script result s =
      { applyResult preferences config now result
          (script.foldl (applyMid preferences) (requestBegin preferences s)) with
        state := requestFinally (applyResult preferences config now result
          (script.foldl (applyMid preferences) (requestBegin preferences s))).state } := by
  simp only [request, h, Bool.false_eq_true, if_false]

/-- The invariant relating the cache to the response state: whenever a
payload is cached, the response state holds that same payload, and the
cache is only ever populated when the call is configured with a truthy
`ttl` (hook.tsx lines 240-245 write both cells together). -/
def cacheRespOk (config : ApiCall) (s : CallState) : Bool :=
  (match s.cache with
   | some c => s.response == some c
   | none => true) &&
  (numTruthy config.ttl || s.cache == none)

theorem cacheRespOk_congr (config : ApiCall) {s t : CallState}
    (hc : t.cache = s.cache) (hr : t.response = s.response) :
    cacheRespOk config t = cacheRespOk config s := by
  unfold cacheRespOk
  rw [hc, hr]



/-- C2: the cache short-circuit.  Part 1: the invariant `cacheRespOk`
holds initially.  Part 2: every `request` invocation preserves it.
Part 3: with a positive `ttl`, a cached payload and an unexpired cache
(`cacheTimestamp + ttl > now`, hook.tsx line 199), `fetch()` does not
invoke the transport and ends with the response state equal to the
cached payload (the hit path writes only the local variable, but by
the invariant the response state already carries the cached value). -/
theorem C2_cache_short_circuit :
    (∀ config : ApiCall, cacheRespOk config initState = true) ∧
    (∀ (preferences : ClientConfig) (config : ApiCall) (now : Nat)
      (script : List MidEvent) (result : TransportResult) (s : CallState),
      cacheRespOk config s = true →
      cacheRespOk config (request preferences config now script result s).state = true) ∧
    (∀ (preferences : ClientConfig) (config : ApiCall) (now : Nat)
      (script : List MidEvent) (result : TransportResult) (s : CallState)
      (t c : Nat), config.ttl = some t → 0 < t → s.cache = some c →
      now < s.cacheTime + t → cacheRespOk config s = true →
      (request preferences config now script result s).transportInvoked = false ∧
      (request preferences config now script result s).state.response = some c) := by
  refine ⟨?_, ?_, ?_⟩
  · intro config
    simp [cacheRespOk, initState]
  · intro preferences config now script result s hok
    have hrb := requestBegin_fields preferences s
    have hsm := foldlMid_sameCore preferences script (requestBegin preferences s)
    have hsmc : (script.foldl (applyMid preferences)
        (requestBegin preferences s)).cache = s.cache := hsm.2.1.trans hrb.2.1
    have hsmr : (script.foldl (applyMid preferences)
        (requestBegin preferences s)).response = s.response := hsm.1.trans hrb.1
    by_cases h : cacheHit config now (requestBegin preferences s)
    · rw [request_eq_hit preferences config now script result s h]
      have : cacheRespOk config (requestFinally (requestBegin preferences s)) =
          cacheRespOk config s :=
        cacheRespOk_congr config hrb.2.1 hrb.1
      rw [this]
      exact hok
    · rw [request_eq_miss preferences config now script result s
        (eq_false_of_ne_true h)]
      cases result with
      | success data =>
        by_cases httl : numTruthy config.ttl
        · simp [applyResult, requestFinally, httl, cacheRespOk]
        · have hnone : s.cache = none := by
            have h2 := (Bool.and_eq_true _ _).mp hok |>.2
            rcases (Bool.or_eq_true _ _).mp h2 with h3 | h3
            · exact absurd h3 httl
            · exact beq_iff_eq.mp h3
          simp [applyResult, requestFinally, httl, cacheRespOk,
            hsmc.trans hnone]
      | cancelled =>
        have : cacheRespOk config (requestFinally
            { (script.foldl (applyMid preferences) (requestBegin preferences s)) with
              source := none }) = cacheRespOk config s :=
          cacheRespOk_congr config hsmc hsmr
        simpa [applyResult, this] using hok
      | failure err =>
        have hk := applyResult_failure_keeps preferences config now err
          (script.foldl (applyMid preferences) (requestBegin preferences s))
        have : cacheRespOk config (requestFinally
            (applyResult preferences config now (.failure err)
              (script.foldl (applyMid preferences)
                (requestBegin preferences s))).state) = cacheRespOk config s := by
          refine cacheRespOk_congr config ?_ ?_
          · exact hk.1.trans hsmc
          · exact hk.2.trans hsmr
        rw [this]
        exact hok
  · intro preferences config now script result s t c httl ht hc hfresh hok
    have hrb := requestBegin_fields preferences s
    have hhit : cacheHit config now (requestBegin preferences s) = true := by
      rw [cacheHit_requestBegin]
      unfold cacheHit
      rw [httl, hc]
      simp only [numTruthy, Option.isSome_some, Option.getD_some]
      refine (Bool.and_eq_true _ _).mpr ⟨(Bool.and_eq_true _ _).mpr ⟨?_, rfl⟩, ?_⟩
      · simpa using Nat.pos_iff_ne_zero.mp ht
      · exact decide_eq_true (by omega)
    rw [request_eq_hit preferences config now script result s hhit]
    refine ⟨rfl, ?_⟩
    show (requestBegin preferences s).response = some c
    rw [hrb.1]
    have h1 := (Bool.and_eq_true _ _).mp hok |>.1
    rw [hc] at h1
    exact beq_iff_eq.mp h1

/-- A factory configuration with no optional feature enabled. -/
def prefsPlain : ClientConfig where
  hasOnException := false
  logging := none
  retry := none
  progress := none

/-- A call binding with caching enabled (`ttl = 50`). -/
def cfgTtl : ApiCall where
  refresh := none
  ttl := some 50

/-- A state holding a cached payload written at time 100. -/
def stateCached : CallState :=
  { initState with cache := some 5, response := some 5, cacheTime := 100 }

/-- Witness for C2: at time 120 the 50ms cache from time 100 is
unexpired, the transport is skipped and the response equals the
cached payload. -/
theorem C2_cache_short_circuit_witness :
    (request prefsPlain cfgTtl 120 [] (.success 8) stateCached).transportInvoked = false ∧
    (request prefsPlain cfgTtl 120 [] (.success 8) stateCached).state.response = some 5 :=
  C2_cache_short_circuit.2.2 prefsPlain cfgTtl 120 [] (.success 8) stateCached
    50 5 rfl (by decide) rfl (by decide) (by decide)




theorem applyResult_retryCount_le (preferences : ClientConfig)
    (config : ApiCall) (now : Nat) (result : TransportResult) (s : CallState)
    (r : RetryConfig) (hr : preferences.retry = some r)
    (hb : s.retryCount ≤ effMaxRetryCount r) :
    (applyResult preferences config now result s).state.retryCount ≤
      effMaxRetryCount r := by
  cases result with
  | success data =>
    simp only [applyResult]
    split_ifs <;> exact hb
  | cancelled => exact hb
  | failure err =>
    rcases hc : r.retryCondition with _ | cond <;>
      simp only [applyResult, hr, hc] <;> split_ifs <;>
      (try simp_all only [Bool.and_eq_true, decide_eq_true_eq]) <;> omega

theorem request_retryCount_le (preferences : ClientConfig) (config : ApiCall)
    (now : Nat) (script : List MidEvent) (result : TransportResult)
    (s : CallState) (r : RetryConfig) (hr : preferences.retry = some r)
    (hb : s.retryCount ≤ effMaxRetryCount r) :
    (request preferences config now script result s).state.retryCount ≤
      effMaxRetryCount r := by
  have hrb := requestBegin_fields preferences s
  have hsm : (script.foldl (applyMid preferences)
      (requestBegin preferences s)).retryCount = s.retryCount :=
    ((foldlMid_sameCore preferences script
      (requestBegin preferences s)).2.2.2.1).trans hrb.2.2.2.1
  by_cases h : cacheHit config now (requestBegin preferences s)
  · rw [request_eq_hit preferences config now script result s h]
    show (requestBegin preferences s).retryCount ≤ effMaxRetryCount r
    rw [hrb.2.2.2.1]
    exact hb
  · rw [request_eq_miss preferences config now script result s
      (eq_false_of_ne_true h)]
    show (applyResult preferences config now result _).state.retryCount ≤
      effMaxRetryCount r
    exact applyResult_retryCount_le preferences config now result _ r hr
      (hsm ▸ hb)

theorem runRetries_retryCount_le (preferences : ClientConfig)
    (config : ApiCall) (now : Nat) (r : RetryConfig)
    (hr : preferences.retry = some r) :
    ∀ (results : List TransportResult) (s : CallState),
    s.retryCount ≤ effMaxRetryCount r →
    (runRetries preferences config now s results).finalState.retryCount ≤
      effMaxRetryCount r
  | [], s, hb => hb
  | tr :: rs, s, hb => by
    simp only [runRetries]
    split_ifs with hs <;>
      first
        | exact runRetries_retryCount_le preferences config now r hr rs _
            (request_retryCount_le preferences config now [] tr s r hr hb)
        | exact request_retryCount_le preferences config now [] tr s r hr hb

/-- C3 amended: `retryCount` never exceeds the *effective* maximum
(the configured `maxRetryCount` when nonzero, else the default 3,
hook.tsx line 256), both per invocation and over any run driven by
scheduled retries from the initial state; when the controller gives up
(retry absent, disabled, or count at the effective maximum) a failure
resets `retryCount` to 0 (line 269); and a successful transport
completion leaves `retryCount` unchanged — the success path
(lines 234-245) performs no reset. -/
theorem C3_retryCount_amended :
    (∀ (preferences : ClientConfig) (config : ApiCall) (now : Nat)
      (script : List MidEvent) (result : TransportResult) (s : CallState)
      (r : RetryConfig), preferences.retry = some r →
      s.retryCount ≤ effMaxRetryCount r →
      (request preferences config now script result s).state.retryCount ≤
        effMaxRetryCount r) ∧
    (∀ (preferences : ClientConfig) (config : ApiCall) (now : Nat)
      (results : List TransportResult) (r : RetryConfig),
      preferences.retry = some r →
      (runRetries preferences config now initState results).finalState.retryCount ≤
        effMaxRetryCount r) ∧
    (∀ (preferences : ClientConfig) (config : ApiCall) (now : Nat)
      (script : List MidEvent) (err : Nat) (s : CallState),
      cacheHit config now s = false →
      (preferences.retry = none ∨ ∃ r, preferences.retry = some r ∧
        (r.enableRetry = false ∨ effMaxRetryCount r ≤ s.retryCount)) →
      (request preferences config now script (.failure err) s).state.retryCount = 0) ∧
    (∀ (preferences : ClientConfig) (config : ApiCall) (now : Nat)
      (script : List MidEvent) (data : Nat) (s : CallState),
      cacheHit config now s = false →
      (request preferences config now script (.success data) s).state.retryCount =
        s.retryCount) := by
  refine ⟨?_, ?_, ?_, ?_⟩
  · intro preferences config now script result s r hr hb
    exact request_retryCount_le preferences config now script result s r hr hb
  · intro preferences config now results r hr
    exact runRetries_retryCount_le preferences config now r hr results initState
      (Nat.zero_le _)
  · intro preferences config now script err s hmiss hgate
    have hmiss' : cacheHit config now (requestBegin preferences s) = false :=
      (cacheHit_requestBegin preferences config now s).trans hmiss
    have hsm : (script.foldl (applyMid preferences)
        (requestBegin preferences s)).retryCount = s.retryCount :=
      ((foldlMid_sameCore preferences script
        (requestBegin preferences s)).2.2.2.1).trans
        (requestBegin_fields preferences s).2.2.2.1
    rw [request_eq_miss preferences config now script (.failure err) s hmiss']
    show (applyResult preferences config now (.failure err) _).state.retryCount = 0
    rcases hgate with hnone | ⟨r, hr, hdis⟩
    · simp [applyResult, hnone]
    · have hgfalse : (r.enableRetry && decide
          ((script.foldl (applyMid preferences)
            (requestBegin preferences s)).retryCount < effMaxRetryCount r)) = false := by
        rcases hdis with hd | hd
        · simp [hd]
        · rw [hsm]
          simp [Bool.and_eq_false_iff]
          omega
      simp [applyResult, hr, hgfalse]
  · intro preferences config now script data s hmiss
    have hmiss' : cacheHit config now (requestBegin preferences s) = false :=
      (cacheHit_requestBegin preferences config now s).trans hmiss
    have hsm : (script.foldl (applyMid preferences)
        (requestBegin preferences s)).retryCount = s.retryCount :=
      ((foldlMid_sameCore preferences script
        (requestBegin preferences s)).2.2.2.1).trans
        (requestBegin_fields preferences s).2.2.2.1
    rw [request_eq_miss preferences config now script (.success data) s hmiss']
    show (applyResult preferences config now (.success data) _).state.retryCount =
      s.retryCount
    simp only [applyResult]
    split_ifs <;> exact hsm

/-- Witness for C3's amended statement: a give-up failure resets
`retryCount` from 3 to 0. -/
theorem C3_retryCount_amended_witness :
    (request prefsMaxZero cfgEmpty 0 []
      (.failure 5) { initState with retryCount := 3 }).state.retryCount = 0 :=
  C3_retryCount_amended.2.2.1 prefsMaxZero cfgEmpty 0 [] 5
    { initState with retryCount := 3 } (by decide)
    (Or.inr ⟨{ enableRetry := true, maxRetryCount := some 0,
               retryInterval := none, retryCondition := some (fun _ => true) },
      rfl, Or.inr (by decide)⟩)



/-- The polling invariant: the recorded `intervalId` matches the set
of live timers (none, or exactly the recorded one), and every recorded
id was drawn from the fresh-id supply. -/
def pollInvB (w : PollWorld) : Bool :=
  match w.intervalId with
  | none => w.active == []
  | some id => w.active == [id] && decide (id < w.fresh)

theorem pollInvB_initPoll : pollInvB initPoll = true := by decide

theorem pollInvB_stopPolling (w : PollWorld) (h : pollInvB w = true) :
    pollInvB (stopPolling w) = true := by
  rcases hi : w.intervalId with _ | id
  · simpa [stopPolling, hi] using h
  · simp only [pollInvB, hi, Bool.and_eq_true, beq_iff_eq, decide_eq_true_eq] at h
    simp [stopPolling, hi, pollInvB, h.1]

theorem stopPolling_active_nil (w : PollWorld) (h : pollInvB w = true) :
    (stopPolling w).active = [] := by
  rcases hi : w.intervalId with _ | id
  · simp only [pollInvB, hi, beq_iff_eq] at h
    simpa [stopPolling, hi] using h
  · simp only [pollInvB, hi, Bool.and_eq_true, beq_iff_eq, decide_eq_true_eq] at h
    simp [stopPolling, hi, h.1]

theorem stopPolling_fresh (w : PollWorld) : (stopPolling w).fresh = w.fresh := by
  rcases hi : w.intervalId with _ | id <;> simp [stopPolling, hi]

theorem pollInvB_startPolling (config : ApiCall) (w : PollWorld)
    (h : pollInvB w = true) : pollInvB (startPolling config w) = true := by
  by_cases href : numTruthy config.refresh
  · simp only [startPolling, href, if_true]
    simp [pollInvB, stopPolling_active_nil w h]
  · simpa [startPolling, href] using h

theorem pollInvB_applyPollOps (config : ApiCall) :
    ∀ (ops : List PollOp) (w : PollWorld), pollInvB w = true →
    pollInvB (applyPollOps config w ops) = true
  | [], w, h => h
  | op :: ops, w, h => by
    have hstep : pollInvB (match op with
        | PollOp.resume => startPolling config w
        | PollOp.pause => stopPolling w) = true := by
      cases op
      · exact pollInvB_startPolling config w h
      · exact pollInvB_stopPolling w h
    exact pollInvB_applyPollOps config ops _ hstep

theorem pollInvB_length (w : PollWorld) (h : pollInvB w = true) :
    w.active.length ≤ 1 := by
  rcases hi : w.intervalId with _ | id
  · simp only [pollInvB, hi, beq_iff_eq] at h
    simp [h]
  · simp only [pollInvB, hi, Bool.and_eq_true, beq_iff_eq, decide_eq_true_eq] at h
    simp [h.1]

/-- C6: at most one poll timer is ever active: any sequence of
`polling.resume`/`polling.pause` calls from the initial state leaves
at most one live timer; when `refresh` is configured (truthy), a
`resume` always ends with exactly one live timer and the previously
recorded timer is no longer live (`startPolling` runs `stopPolling`
first, hook.tsx line 310); and `stopPolling` with no recorded timer is
a no-op (`if (intervalId)` guard plus `try`/`catch`, lines 320-327),
so it never raises. -/
theorem C6_single_poll_timer :
    (∀ (config : ApiCall) (ops : List PollOp),
      (applyPollOps config initPoll ops).active.length ≤ 1) ∧
    (∀ (config : ApiCall) (w : PollWorld), pollInvB w = true →
      numTruthy config.refresh = true →
      (startPolling config w).active.length = 1 ∧
      (∀ id, w.intervalId = some id → id ∉ (startPolling config w).active)) ∧
    (∀ w : PollWorld, w.intervalId = none → stopPolling w = w) := by
  refine ⟨?_, ?_, ?_⟩
  · intro config ops
    exact pollInvB_length _ (pollInvB_applyPollOps config ops initPoll pollInvB_initPoll)
  · intro config w h href
    constructor
    · simp only [startPolling, href, if_true]
      simp [stopPolling_active_nil w h]
    · intro id hid
      have hnil := stopPolling_active_nil w h
      have hfr := stopPolling_fresh w
      have hlt : id < w.fresh := by
        simp only [pollInvB, hid, Bool.and_eq_true, beq_iff_eq,
          decide_eq_true_eq] at h
        exact h.2
      simp only [startPolling, href, if_true]
      show id ∉ (stopPolling w).fresh :: (stopPolling w).active
      rw [hnil, hfr]
      simp only [List.mem_cons, List.not_mem_nil, or_false]
      omega
  · intro w h
    simp [stopPolling, h]

/-- Witness for C6: pausing then resuming twice with `refresh = 5`
leaves exactly one live timer. -/
theorem C6_single_poll_timer_witness :
    (applyPollOps { refresh := some 5, ttl := none } initPoll
      [PollOp.pause, PollOp.resume, PollOp.resume]).active.length ≤ 1 ∧
    (startPolling { refresh := some 5, ttl := none } initPoll).active.length = 1 ∧
    stopPolling initPoll = initPoll :=
  ⟨C6_single_poll_timer.1 { refresh := some 5, ttl := none }
    [PollOp.pause, PollOp.resume, PollOp.resume],
   (C6_single_poll_timer.2.1 { refresh := some 5, ttl := none } initPoll
     (by decide) (by decide)).1,
   C6_single_poll_timer.2.2 initPoll rfl⟩



/-- C8: on a progress-sampling tick with a progress configuration
present, `triggerProgressChange` recomputes the observable `progress`
from the two counters by mode: `upload` takes the upload counter,
`download` the download counter, and any other mode (the switch
default, including `both`) the arithmetic mean (hook.tsx 125-144). -/
theorem C8_progress_modes (preferences : ClientConfig) (p : ProgressConfig)
    (s : CallState) (hp : preferences.progress = some p) :
    (applyMid preferences s .tick = triggerProgressChange preferences s) ∧
    (p.progressMode = some "upload" →
      (triggerProgressChange preferences s).progress = (s.uploadProgress : ℚ)) ∧
    (p.progressMode = some "download" →
      (triggerProgressChange preferences s).progress = (s.downloadProgress : ℚ)) ∧
    (p.progressMode ≠ some "upload" → p.progressMode ≠ some "download" →
      (triggerProgressChange preferences s).progress =
        ((s.uploadProgress : ℚ) + (s.downloadProgress : ℚ)) / 2) := by
  refine ⟨rfl, ?_, ?_, ?_⟩
  · intro hm
    simp [triggerProgressChange, hp, hm]
  · intro hm
    simp [triggerProgressChange, hp, hm]
  · intro h1 h2
    simp [triggerProgressChange, hp, h1, h2]

/-- Witness for C8: mode `both` with counters 40 and 60 yields
`progress = 50`. -/
theorem C8_progress_modes_witness :
    (triggerProgressChange
      { hasOnException := false, logging := none, retry := none,
        progress := some { progressMode := some "both", progressInterval := some 100 } }
      { initState with uploadProgress := 40, downloadProgress := 60 }).progress = 50 := by
  have h := (C8_progress_modes
    { hasOnException := false, logging := none, retry := none,
      progress := some { progressMode := some "both", progressInterval := some 100 } }
    { progressMode := some "both", progressInterval := some 100 }
    { initState with uploadProgress := 40, downloadProgress := 60 }
    rfl).2.2.2 (by simp) (by simp)
  rw [h]
  norm_num

/-- The spec's level hierarchy, as a numeric rank: `debug` < `info` <
`warn` < `error`; any other string has no rank. -/
def specLevelRank (l : String) : Option Nat :=
  if l = "debug" then some 0
  else if l = "info" then some 1
  else if l = "warn" then some 2
  else if l = "error" then some 3
  else none

theorem rank_chain_info (level : String) :
    (level == "info" || level == "warn" || level == "error") = true ↔
      ∃ rm, specLevelRank level = some rm ∧ 1 ≤ rm := by
  by_cases l1 : level = "debug" <;> by_cases l2 : level = "info" <;>
    by_cases l3 : level = "warn" <;> by_cases l4 : level = "error" <;>
    simp_all [specLevelRank]

theorem rank_chain_warn (level : String) :
    (level == "warn" || level == "error") = true ↔
      ∃ rm, specLevelRank level = some rm ∧ 2 ≤ rm := by
  by_cases l1 : level = "debug" <;> by_cases l2 : level = "info" <;>
    by_cases l3 : level = "warn" <;> by_cases l4 : level = "error" <;>
    simp_all [specLevelRank]

theorem rank_chain_error (level : String) :
    (level == "error") = true ↔
      ∃ rm, specLevelRank level = some rm ∧ 3 ≤ rm := by
  by_cases l1 : level = "debug" <;> by_cases l2 : level = "info" <;>
    by_cases l3 : level = "warn" <;> by_cases l4 : level = "error" <;>
    simp_all [specLevelRank]

theorem shouldLog_iff (logLevel : Option String) (level : String) :
    shouldLog logLevel level = true ↔
      (logLevel = some "debug" ∨
        ∃ rc rm, logLevel.bind specLevelRank = some rc ∧
          specLevelRank level = some rm ∧ rc ≤ rm) := by
  rcases hv : logLevel with _ | s
  · simp [shouldLog]
  · by_cases c1 : s = "debug" <;> by_cases c2 : s = "info" <;>
      by_cases c3 : s = "warn" <;> by_cases c4 : s = "error" <;>
      by_cases l1 : level = "debug" <;> by_cases l2 : level = "info" <;>
      by_cases l3 : level = "warn" <;> by_cases l4 : level = "error" <;>
      simp_all [shouldLog, specLevelRank]

theorem logger_isSome (preferences : ClientConfig) (logging : LoggingConfig)
    (level message : String) (hl : preferences.logging = some logging) :
    (logger preferences level message).isSome =
      (logging.enableLogging && shouldLog logging.logLevel level) := by
  cases he : logging.enableLogging <;>
    cases hb : shouldLog logging.logLevel level <;>
    simp [logger, hl, he, hb]

/-- C9: a message reaches the sink iff logging is enabled and the
configured level admits the message level under the strict hierarchy:
configured `debug` admits everything; otherwise both levels must be
ranked (`debug` < `info` < `warn` < `error`) and the configured rank
must not exceed the message rank — so `info` admits info/warn/error,
`warn` admits warn/error, `error` admits only error, and an
unrecognized configured level admits nothing (the switch default,
hook.tsx lines 89-91).  What reaches the sink is exactly the
`(level, message)` pair. -/
theorem C9_logger_hierarchy (preferences : ClientConfig)
    (logging : LoggingConfig) (level message : String)
    (hl : preferences.logging = some logging) :
    ((logger preferences level message).isSome = true ↔
      (logging.enableLogging = true ∧
        (logging.logLevel = some "debug" ∨
          ∃ rc rm, logging.logLevel.bind specLevelRank = some rc ∧
            specLevelRank level = some rm ∧ rc ≤ rm))) ∧
    (∀ out, logger preferences level message = some out →
      out = (level, message)) := by
  constructor
  · rw [logger_isSome preferences logging level message hl,
      Bool.and_eq_true]
    rw [shouldLog_iff logging.logLevel level]
  · intro out hout
    simp only [logger, hl] at hout
    split_ifs at hout
    first
      | exact (Option.some_inj.mp hout).symm
      | exact absurd hout (by simp)

/-- Witness for C9: at configured level `warn`, an `info` message is
suppressed while `warn` and `error` messages reach the sink. -/
theorem C9_logger_hierarchy_witness :
    ((logger
      { hasOnException := false, retry := none, progress := none,
        logging := some { enableLogging := true, logLevel := some "warn" } }
      "info" "m").isSome = false ∧
     (logger
      { hasOnException := false, retry := none, progress := none,
        logging := some { enableLogging := true, logLevel := some "warn" } }
      "warn" "m").isSome = true ∧
     (logger
      { hasOnException := false, retry := none, progress := none,
        logging := some { enableLogging := true, logLevel := some "warn" } }
      "error" "m").isSome = true) := by
  refine ⟨?_, ?_, ?_⟩
  · have h := (C9_logger_hierarchy
      { hasOnException := false, retry := none, progress := none,
        logging := some { enableLogging := true, logLevel := some "warn" } }
      { enableLogging := true, logLevel := some "warn" } "info" "m" rfl).1
    rw [Bool.eq_false_iff]
    intro hc
    rcases (h.mp hc).2 with hdeb | ⟨rc, rm, hrc, hrm, hge⟩
    · exact absurd hdeb (by simp)
    · rw [show ((some "warn" : Option String).bind specLevelRank) = some 2 by
        simp [specLevelRank]] at hrc
      rw [show specLevelRank "info" = some 1 by simp [specLevelRank]] at hrm
      have h1 : rc = 2 := Option.some_inj.mp hrc.symm
      have h2 : rm = 1 := Option.some_inj.mp hrm.symm
      omega
  · exact (C9_logger_hierarchy
      { hasOnException := false, retry := none, progress := none,
        logging := some { enableLogging := true, logLevel := some "warn" } }
      { enableLogging := true, logLevel := some "warn" } "warn" "m" rfl).1.mpr
      ⟨rfl, Or.inr ⟨2, 2, by simp [specLevelRank], by simp [specLevelRank],
        le_refl 2⟩⟩
  · exact (C9_logger_hierarchy
      { hasOnException := false, retry := none, progress := none,
        logging := some { enableLogging := true, logLevel := some "warn" } }
      { enableLogging := true, logLevel := some "warn" } "error" "m" rfl).1.mpr
      ⟨rfl, Or.inr ⟨2, 3, by simp [specLevelRank], by simp [specLevelRank],
        by omega⟩⟩



/-- Progress tracking configured in mode `both` with a sampling
interval. -/
def prefsBoth : ClientConfig where
  hasOnException := false
  logging := none
  retry := none
  progress := some { progressMode := some "both", progressInterval := some 100 }

/-- Counterexample to C7 as stated: in mode `both`, after progress
callbacks reporting 41% upload and 60% download and one sampling tick,
the observable `progress` is `(41 + 60) / 2 = 50.5` (hook.tsx line
140 averages with JavaScript `/`), which is not an integer. -/
theorem C7_counterexample :
    (request prefsBoth cfgEmpty 0 [.upload 41 100, .download 60 100, .tick]
      (.success 0) initState).state.progress = 101 / 2 ∧
    ∀ n : ℕ, (request prefsBoth cfgEmpty 0 [.upload 41 100, .download 60 100, .tick]
      (.success 0) initState).state.progress ≠ (n : ℚ) := by
  have h : (request prefsBoth cfgEmpty 0 [.upload 41 100, .download 60 100, .tick]
      (.success 0) initState).state.progress = 101 / 2 := by
    norm_num [request, requestBegin, cacheHit, numTruthy, applyMid,
      triggerProgressChange, applyResult, requestFinally, percentCompleted,
      prefsBoth, cfgEmpty, initState]
    rw [if_neg (by decide), if_neg (by decide)]
  refine ⟨h, ?_⟩
  intro n
  rw [h]
  intro he
  have h2 : (101 : ℚ) = 2 * (n : ℚ) := by
    field_simp at he
    linarith
  have h3 : (101 : ℕ) = 2 * n := by exact_mod_cast h2
  omega

/-- A progress event is well formed when the reported `loaded` count
does not exceed the known `total`. -/
def goodEvent : MidEvent → Bool
  | .upload loaded total => decide (loaded ≤ total)
  | .download loaded total => decide (loaded ≤ total)
  | .tick => true

/-- The amended progress range property: the two counters are
naturals at most 100, and the observable `progress` lies in `[0, 100]`
and is an integer or half-integer (twice it is a natural). -/
def ProgOk (s : CallState) : Prop :=
  s.uploadProgress ≤ 100 ∧ s.downloadProgress ≤ 100 ∧
  0 ≤ s.progress ∧ s.progress ≤ 100 ∧ ∃ n : ℕ, 2 * s.progress = (n : ℚ)

theorem percentCompleted_le (loaded total : Nat) (hl : loaded ≤ total)
    (ht : 0 < total) : percentCompleted loaded total ≤ 100 := by
  unfold percentCompleted
  have h2 : 0 < 2 * total := by omega
  have h3 : 200 * loaded + total < 101 * (2 * total) := by omega
  have h4 := (Nat.div_lt_iff_lt_mul h2).mpr (by omega :
    200 * loaded + total < 101 * (2 * total))
  omega

theorem progOk_triggerProgressChange (preferences : ClientConfig)
    (s : CallState) (hs : ProgOk s) :
    ProgOk (triggerProgressChange preferences s) := by
  obtain ⟨h1, h2, h3, h4, n, hn⟩ := hs
  have hu100 : (s.uploadProgress : ℚ) ≤ 100 := by exact_mod_cast h1
  have hd100 : (s.downloadProgress : ℚ) ≤ 100 := by exact_mod_cast h2
  unfold triggerProgressChange
  split
  · exact ⟨h1, h2, h3, h4, n, hn⟩
  · split_ifs
    · refine ⟨h1, h2, by positivity, hu100, 2 * s.uploadProgress, ?_⟩
      push_cast
      ring
    · refine ⟨h1, h2, by positivity, hd100, 2 * s.downloadProgress, ?_⟩
      push_cast
      ring
    · refine ⟨h1, h2, by positivity, ?_, s.uploadProgress + s.downloadProgress, ?_⟩
      · rw [div_le_iff₀ (by norm_num : (0:ℚ) < 2)]
        linarith
      · push_cast
        field_simp
  
theorem progOk_applyMid (preferences : ClientConfig) (s : CallState)
    (e : MidEvent) (hs : ProgOk s) (he : goodEvent e = true) :
    ProgOk (applyMid preferences s e) := by
  cases e with
  | upload loaded total =>
    simp only [goodEvent, decide_eq_true_eq] at he
    simp only [applyMid]
    split_ifs with ht
    · obtain ⟨h1, h2, h3, h4, n, hn⟩ := hs
      exact ⟨percentCompleted_le loaded total he (Nat.pos_of_ne_zero ht),
        h2, h3, h4, n, hn⟩
    · exact hs
  | download loaded total =>
    simp only [goodEvent, decide_eq_true_eq] at he
    simp only [applyMid]
    split_ifs with ht
    · obtain ⟨h1, h2, h3, h4, n, hn⟩ := hs
      exact ⟨h1, percentCompleted_le loaded total he (Nat.pos_of_ne_zero ht),
        h3, h4, n, hn⟩
    · exact hs
  | tick => exact progOk_triggerProgressChange preferences s hs

theorem progOk_foldl (preferences : ClientConfig) :
    ∀ (script : List MidEvent) (s : CallState), ProgOk s →
    (∀ e ∈ script, goodEvent e = true) →
    ProgOk (script.foldl (applyMid preferences) s)
  | [], s, hs, _ => hs
  | e :: es, s, hs, hg => by
    simp only [List.foldl_cons]
    exact progOk_foldl preferences es _
      (progOk_applyMid preferences s e hs (hg e (by simp)))
      (fun e' he' => hg e' (by simp [he']))

theorem progOk_requestBegin (preferences : ClientConfig) (s : CallState) :
    ProgOk (requestBegin preferences s) := by
  unfold requestBegin
  split
  · split_ifs <;>
      exact ⟨by norm_num, by norm_num, by norm_num, by norm_num, 0, by norm_num⟩
  · exact ⟨by norm_num, by norm_num, by norm_num, by norm_num, 0, by norm_num⟩

/-- C7 amended: `uploadProgress` and `downloadProgress` are natural
percentages, at most 100 whenever every delivered progress event
reports `loaded ≤ total`; under the same condition the observable
`progress` lies in `[0, 100]`, but it need not be an integer: it is an
integer or half-integer (twice it is a natural), since mode `both`
averages the two integer counters exactly (hook.tsx line 140). -/
theorem C7_progress_amended (preferences : ClientConfig) (config : ApiCall)
    (now : Nat) (script : List MidEvent) (result : TransportResult)
    (s : CallState) (hg : ∀ e ∈ script, goodEvent e = true) :
    ProgOk (request preferences config now script result s).state := by
  by_cases h : cacheHit config now (requestBegin preferences s)
  · rw [request_eq_hit preferences config now script result s h]
    exact progOk_requestBegin preferences s
  · rw [request_eq_miss preferences config now script result s
      (eq_false_of_ne_true h)]
    have hsm := progOk_foldl preferences script (requestBegin preferences s)
      (progOk_requestBegin preferences s) hg
    have hap := applyResult_prog preferences config now result
      (script.foldl (applyMid preferences) (requestBegin preferences s))
    obtain ⟨h1, h2, h3, h4, n, hn⟩ := hsm
    refine ⟨?_, ?_, ?_, ?_, n, ?_⟩
    · show (applyResult preferences config now result
        (script.foldl (applyMid preferences)
          (requestBegin preferences s))).state.uploadProgress ≤ 100
      rw [hap.1]
      exact h1
    · show (applyResult preferences config now result
        (script.foldl (applyMid preferences)
          (requestBegin preferences s))).state.downloadProgress ≤ 100
      rw [hap.2.1]
      exact h2
    · show 0 ≤ (applyResult preferences config now result
        (script.foldl (applyMid preferences)
          (requestBegin preferences s))).state.progress
      rw [hap.2.2]
      exact h3
    · show (applyResult preferences config now result
        (script.foldl (applyMid preferences)
          (requestBegin preferences s))).state.progress ≤ 100
      rw [hap.2.2]
      exact h4
    · show 2 * (applyResult preferences config now result
        (script.foldl (applyMid preferences)
          (requestBegin preferences s))).state.progress = (n : ℚ)
      rw [hap.2.2]
      exact hn

/-- Witness for C7's amended statement at a concrete run. -/
theorem C7_progress_amended_witness :
    ProgOk (request prefsBoth cfgEmpty 0 [.upload 50 100, .tick]
      (.success 1) initState).state :=
  C7_progress_amended prefsBoth cfgEmpty 0 [.upload 50 100, .tick]
    (.success 1) initState (by decide)


end UseApiClient
